import Mathlib

/-!
Shallow embedding of the word-guessing-game frontend state machines.

The embedding covers two components of the repository:

* the game control bar (component WordGameControlBar): language selection,
  the start/stop game handlers with their busy guard, agent lookup, RPC
  dispatch, and the disconnect reset effect;
* the session view (component WordGameSessionView): the agent liveness
  timeout armed by a React effect keyed on the agent state.

Handlers are modelled as an event-step function over an explicit machine
state.  An async handler runs synchronously up to its first await (the RPC
call); the dispatch phase and the completion phase of a call are therefore
two separate events, and the environment chooses when and how the pending
RPC completes.
-/

namespace WordGame

/-- Score record, source field order: correct and total. -/
structure Score where
  correct : Nat
  total : Nat
deriving DecidableEq, Repr

/-- One entry of the LANGUAGES array of the control bar. -/
structure LanguageOption where
  value : String
  label : String
deriving DecidableEq, Repr

/-- The LANGUAGES array: available languages for the word game. -/
def LANGUAGES : List LanguageOption :=
  [⟨"Portuguese", "Portuguese"⟩,
   ⟨"Spanish", "Spanish"⟩,
   ⟨"French", "French"⟩,
   ⟨"Italian", "Italian"⟩,
   ⟨"German", "German"⟩,
   ⟨"Belarusian", "Belarusian"⟩]

/-- A remote participant of the room, with the flag used by the agent
lookup in both handlers. -/
structure Participant where
  identity : String
  isAgent : Bool
deriving DecidableEq, Repr

/-- The room as the control bar reads it: the collection of remote
participants, in iteration order. -/
structure Room where
  remoteParticipants : List Participant
deriving DecidableEq, Repr

/-- Agent lookup used by both handlers:
Array.from(room.remoteParticipants.values()).find(p fires on p.isAgent). -/
def findAgent (room : Room) : Option Participant :=
  room.remoteParticipants.find? (fun p => p.isAgent)

/-- Argument record of performRpc as built at both call sites. -/
structure RpcCall where
  destinationIdentity : String
  method : String
  payload : String
deriving DecidableEq, Repr

/-- Error taxonomy of the control bar.  NoAgentPresent corresponds to the
early return after the failed agent lookup; RpcFailure to the catch branch
around performRpc. -/
inductive GameError where
  | NoAgentPresent : GameError
  | RpcFailure : GameError
deriving DecidableEq, Repr

/-- The React state of WordGameControlBar: the four useState hooks. -/
structure CtlState where
  isLoading : Bool
  gameStarted : Bool
  selectedLanguage : String
  score : Score
deriving DecidableEq, Repr

/-- Which handler a dispatched, not yet completed, RPC belongs to. -/
inductive PendingKind where
  | starting : PendingKind
  | stopping : PendingKind
deriving DecidableEq, Repr

/-- Machine state: the component state plus the list of dispatched RPCs
whose awaits have not resumed yet, in call order. -/
structure Machine where
  ctl : CtlState
  pending : List PendingKind
deriving DecidableEq, Repr

/-- Initial component state: the useState initial values. -/
def initMachine : Machine :=
  { ctl := { isLoading := false
             gameStarted := false
             selectedLanguage := "Portuguese"
             score := ⟨0, 0⟩ }
    pending := [] }

/-- Events the control bar reacts to.  clickStart and clickStop run the
synchronous phase of the corresponding handler; rpcDone resumes the oldest
pending await with the success flag chosen by the environment; selectLang
is the onChange handler of the select element; roomDisconnected is the
effect watching room.state. -/
inductive Ev where
  | clickStart : Ev
  | clickStop : Ev
  | rpcDone : Bool → Ev
  | selectLang : String → Ev
  | roomDisconnected : Ev
deriving DecidableEq, Repr

/-- One event step.  Returns the new machine state, the RPC calls
dispatched during the step, and the error surfaced (logged) during the
step, if any.

clickStart follows handleStartGame: the isLoading guard returns at once;
a failed agent lookup returns through the finally block, so the net state
is unchanged and the error is NoAgentPresent; otherwise performRpc is
dispatched with method start_game and the selected language as payload,
and the handler suspends with isLoading left true.

clickStop follows handleStopGame with method stop_game and empty payload.

rpcDone resumes the suspended handler: a successful start sets gameStarted
and resets the score to zero; a successful stop clears gameStarted; a
rejected call runs only the catch and finally blocks.  Either way the
finally block clears isLoading.

roomDisconnected is the effect that clears gameStarted and the score when
room.state is disconnected; it touches neither isLoading, the selected
language, nor the pending call. -/
def step (room : Room) (m : Machine) : Ev → Machine × List RpcCall × Option GameError
  | Ev.clickStart =>
      if m.ctl.isLoading = true then (m, [], none)
      else
        match findAgent room with
        | none => (m, [], some GameError.NoAgentPresent)
        | some a =>
            ({ ctl := { m.ctl with isLoading := true }
               pending := m.pending ++ [PendingKind.starting] },
             [⟨a.identity, "start_game", m.ctl.selectedLanguage⟩], none)
  | Ev.clickStop =>
      if m.ctl.isLoading = true then (m, [], none)
      else
        match findAgent room with
        | none => (m, [], some GameError.NoAgentPresent)
        | some a =>
            ({ ctl := { m.ctl with isLoading := true }
               pending := m.pending ++ [PendingKind.stopping] },
             [⟨a.identity, "stop_game", ""⟩], none)
  | Ev.rpcDone ok =>
      match m.pending with
      | [] => (m, [], none)
      | k :: rest =>
          match k, ok with
          | PendingKind.starting, true =>
              ({ ctl := { m.ctl with isLoading := false, gameStarted := true, score := ⟨0, 0⟩ }
                 pending := rest }, [], none)
          | PendingKind.starting, false =>
              ({ ctl := { m.ctl with isLoading := false }
                 pending := rest }, [], some GameError.RpcFailure)
          | PendingKind.stopping, true =>
              ({ ctl := { m.ctl with isLoading := false, gameStarted := false }
                 pending := rest }, [], none)
          | PendingKind.stopping, false =>
              ({ ctl := { m.ctl with isLoading := false }
                 pending := rest }, [], some GameError.RpcFailure)
  | Ev.selectLang l =>
      ({ m with ctl := { m.ctl with selectedLanguage := l } }, [], none)
  | Ev.roomDisconnected =>
      ({ m with ctl := { m.ctl with gameStarted := false, score := ⟨0, 0⟩ } }, [], none)

/-- State component of a step. -/
def stepEv (room : Room) (m : Machine) (ev : Ev) : Machine :=
  (step room m ev).1

/-- Whether the rendered markup lets the user or environment deliver the
event: the start button exists only while gameStarted is false and is
disabled while isLoading; the stop button exists only while gameStarted is
true and is disabled while isLoading; the select element exists only while
gameStarted is false, is disabled while isLoading or gameStarted, and only
offers the LANGUAGES values; an RPC can complete only if one is pending;
the room may disconnect at any time. -/
def enabled (m : Machine) : Ev → Bool
  | Ev.clickStart => !m.ctl.gameStarted && !m.ctl.isLoading
  | Ev.clickStop => m.ctl.gameStarted && !m.ctl.isLoading
  | Ev.rpcDone _ => !m.pending.isEmpty
  | Ev.selectLang l =>
      !m.ctl.gameStarted && !m.ctl.isLoading
        && (LANGUAGES.map LanguageOption.value).contains l
  | Ev.roomDisconnected => true

/-- Start and stop clicks and RPC completions: the events that make up a
sequence of startGame and stopGame calls. -/
def isCallEv : Ev → Bool
  | Ev.clickStart => true
  | Ev.clickStop => true
  | Ev.rpcDone _ => true
  | Ev.selectLang _ => false
  | Ev.roomDisconnected => false

/-- States reachable from the initial state by enabled events, with the
room free to differ from step to step. -/
inductive Reachable : Machine → Prop where
  | init : Reachable initMachine
  | step {m : Machine} (room : Room) (ev : Ev) :
      Reachable m → enabled m ev = true → Reachable (stepEv room m ev)

/-- States reachable from the initial state by enabled start and stop
calls and their completions only. -/
inductive CallReachable : Machine → Prop where
  | init : CallReachable initMachine
  | step {m : Machine} (room : Room) (ev : Ev) :
      CallReachable m → isCallEv ev = true → enabled m ev = true →
      CallReachable (stepEv room m ev)

/-- Coupling between the busy flag and the pending call list: at most one
call is pending, and one is pending exactly while isLoading holds. -/
def CouplingInv (m : Machine) : Prop :=
  m.pending.length ≤ 1 ∧ (m.ctl.isLoading = true ↔ m.pending ≠ [])

/-- Direction of the pending call agrees with the game flag it is about to
flip: a pending start was issued while no game was running, a pending stop
while one was. -/
def PendingDir (m : Machine) : Prop :=
  (m.pending = [PendingKind.starting] → m.ctl.gameStarted = false) ∧
  (m.pending = [PendingKind.stopping] → m.ctl.gameStarted = true)

/-! ## Session view: agent state and the liveness timeout -/

/-- The agent states delivered by the voice assistant hook. -/
inductive AgentState where
  | disconnected : AgentState
  | connecting : AgentState
  | initializing : AgentState
  | listening : AgentState
  | thinking : AgentState
  | speaking : AgentState
deriving DecidableEq, Repr

/-- Availability predicate of the session view: listening, thinking or
speaking. -/
def isAgentAvailable (s : AgentState) : Bool :=
  s == AgentState.listening || s == AgentState.thinking || s == AgentState.speaking

/-- The description string chosen when the timeout fires while the agent
is unavailable, branching on whether the state is still connecting. -/
def timeoutReason (a : AgentState) : String :=
  if a = AgentState.connecting then "Agent did not join the room. "
  else "Agent connected but did not complete initializing. "

/-- State of the session view and its timer environment:

* now: current time, in time units (the source arms 20000 ms, modelled as
  20 units);
* sessionStarted and agentState: the effect dependencies that matter;
* timers: pending setTimeout entries, as pairs of a handle and an absolute
  deadline;
* heldId: the handle kept by the latest effect run for its cleanup;
* nextId: next fresh setTimeout handle;
* armCount: how many times a timeout has been armed so far;
* disconnectCalled: whether room.disconnect() has been invoked;
* toast: the description of the session-ended alert, if raised. -/
structure SessionState where
  now : Nat
  sessionStarted : Bool
  agentState : AgentState
  timers : List (Nat × Nat)
  heldId : Option Nat
  nextId : Nat
  armCount : Nat
  disconnectCalled : Bool
  toast : Option String
deriving DecidableEq, Repr

/-- Cleanup of the previous effect run: clearTimeout on the held handle.
Clearing an already fired or absent handle is a no-op. -/
def effectCleanup (s : SessionState) : SessionState :=
  match s.heldId with
  | none => s
  | some i => { s with timers := s.timers.filter (fun t => !(t.1 == i)) }

/-- One run of the timeout effect, after its dependencies changed: the
previous cleanup runs first; then, if sessionStarted holds, a fresh 20
unit one-shot timeout is armed and its handle retained for the next
cleanup. -/
def effectRun (s : SessionState) : SessionState :=
  if s.sessionStarted = true then
    { effectCleanup s with
        timers := (effectCleanup s).timers ++ [(s.nextId, s.now + 20)]
        heldId := some s.nextId
        nextId := s.nextId + 1
        armCount := s.armCount + 1 }
  else { effectCleanup s with heldId := none }

/-- Firing of a due timeout: the due entry leaves the timer table and the
callback runs.  If the agent is not available, the session-ended alert is
raised with the reason chosen from the agent state and room.disconnect()
is called; otherwise the callback does nothing. -/
def fireTimeout (s : SessionState) : SessionState :=
  if s.timers.any (fun t => t.2 == s.now) then
    if isAgentAvailable s.agentState = true then
      { s with timers := s.timers.filter (fun t => !(t.2 == s.now)) }
    else
      { s with timers := s.timers.filter (fun t => !(t.2 == s.now))
               toast := some (timeoutReason s.agentState)
               disconnectCalled := true }
  else s

/-- Events of the session view: the session-started flag switching on or
off, a change of the reported agent state, a due timeout firing, and time
passing. -/
inductive SEv where
  | startSession : SEv
  | endSession : SEv
  | agentChange : AgentState → SEv
  | timerFire : SEv
  | elapse : Nat → SEv
deriving DecidableEq, Repr

/-- One session-view step.  startSession, endSession and agentChange each
change an effect dependency, so the effect reruns: its cleanup clears the
previously armed timeout, then a fresh one is armed exactly when the
session is started. -/
def sstep (s : SessionState) : SEv → SessionState
  | SEv.startSession => effectRun { s with sessionStarted := true }
  | SEv.endSession => effectRun { s with sessionStarted := false }
  | SEv.agentChange a => effectRun { s with agentState := a }
  | SEv.timerFire => fireTimeout s
  | SEv.elapse dt => { s with now := s.now + dt }

/-- Enabled session-view events: the flag events only when they change the
flag, agent changes only to a different state, a fire only when some timer
is due, and time may pass only up to the earliest pending deadline. -/
def sEnabled (s : SessionState) : SEv → Bool
  | SEv.startSession => !s.sessionStarted
  | SEv.endSession => s.sessionStarted
  | SEv.agentChange a => !(a == s.agentState)
  | SEv.timerFire => s.timers.any (fun t => t.2 == s.now)
  | SEv.elapse dt => s.timers.all (fun t => decide (s.now + dt ≤ t.2))

/-- Session view at mount time: no session, no timers, with the agent
state reported by the environment. -/
def initSession (a : AgentState) : SessionState :=
  { now := 0
    sessionStarted := false
    agentState := a
    timers := []
    heldId := none
    nextId := 0
    armCount := 0
    disconnectCalled := false
    toast := none }

/-- Session-view states reachable from some mount state by enabled
events. -/
inductive SReachable : SessionState → Prop where
  | init (a : AgentState) : SReachable (initSession a)
  | step {s : SessionState} (ev : SEv) :
      SReachable s → sEnabled s ev = true → SReachable (sstep s ev)

/-- Timer-table invariant: at most one timeout is pending, and any pending
timeout is the one the latest effect run holds for cleanup. -/
def SInv (s : SessionState) : Prop :=
  s.timers.length ≤ 1 ∧ ∀ t ∈ s.timers, s.heldId = some t.1

/-! ## Concrete fixtures -/

/-- A room whose only remote participant is an agent. -/
def room1 : Room :=
  { remoteParticipants := [{ identity := "agent-1", isAgent := true }] }

/-- A room with a remote participant but no agent. -/
def roomNoAgent : Room :=
  { remoteParticipants := [{ identity := "user-1", isAgent := false }] }

/-- A machine with a start call in flight. -/
def mBusy : Machine :=
  { ctl := { isLoading := true
             gameStarted := false
             selectedLanguage := "Portuguese"
             score := ⟨0, 0⟩ }
    pending := [PendingKind.starting] }

/-- A machine with an active game, a selected language and a nonzero
displayed score. -/
def mActive : Machine :=
  { ctl := { isLoading := false
             gameStarted := true
             selectedLanguage := "French"
             score := ⟨2, 3⟩ }
    pending := [] }

/-- A session view whose re-armed timeout is due while the agent is
listening. -/
def sessionListening : SessionState :=
  { now := 25
    sessionStarted := true
    agentState := AgentState.listening
    timers := [(1, 25)]
    heldId := some 1
    nextId := 2
    armCount := 2
    disconnectCalled := false
    toast := none }

/-! ## Invariant lemmas for the control bar -/

theorem coupling_empty_of_not_loading {m : Machine} (h : CouplingInv m)
    (hl : m.ctl.isLoading = false) : m.pending = [] := by
  by_contra hne
  rw [h.2.mpr hne] at hl
  cases hl

theorem coupling_step (room : Room) (m : Machine) (ev : Ev)
    (h : CouplingInv m) : CouplingInv (stepEv room m ev) := by
  obtain ⟨hlen, hiff⟩ := h
  cases ev with
  | clickStart =>
      cases hb : m.ctl.isLoading with
      | true => simpa [stepEv, step, hb] using ⟨hlen, hiff⟩
      | false =>
          have hp : m.pending = [] := coupling_empty_of_not_loading ⟨hlen, hiff⟩ hb
          cases hfind : findAgent room with
          | none => simpa [stepEv, step, hb, hfind] using ⟨hlen, hiff⟩
          | some a => simp [stepEv, step, hb, hfind, hp, CouplingInv]
  | clickStop =>
      cases hb : m.ctl.isLoading with
      | true => simpa [stepEv, step, hb] using ⟨hlen, hiff⟩
      | false =>
          have hp : m.pending = [] := coupling_empty_of_not_loading ⟨hlen, hiff⟩ hb
          cases hfind : findAgent room with
          | none => simpa [stepEv, step, hb, hfind] using ⟨hlen, hiff⟩
          | some a => simp [stepEv, step, hb, hfind, hp, CouplingInv]
  | rpcDone ok =>
      cases hp : m.pending with
      | nil => simpa [stepEv, step, hp] using ⟨hlen, hiff⟩
      | cons k rest =>
          have hr : rest = [] := by
            rw [hp] at hlen
            simp only [List.length_cons] at hlen
            exact List.eq_nil_of_length_eq_zero (by omega)
          cases k <;> cases ok <;> simp [stepEv, step, hp, hr, CouplingInv]
  | selectLang l => simpa [stepEv, step, CouplingInv] using ⟨hlen, hiff⟩
  | roomDisconnected => simpa [stepEv, step, CouplingInv] using ⟨hlen, hiff⟩

theorem reachable_coupling {m : Machine} (h : Reachable m) : CouplingInv m := by
  induction h with
  | init => simp [CouplingInv, initMachine]
  | step room ev hr hen ih => exact coupling_step room _ ev ih

theorem pendingDir_step (room : Room) (m : Machine) (ev : Ev)
    (hc : CouplingInv m) (hd : PendingDir m)
    (hcall : isCallEv ev = true) (hen : enabled m ev = true) :
    PendingDir (stepEv room m ev) := by
  cases ev with
  | clickStart =>
      simp only [enabled, Bool.and_eq_true, Bool.not_eq_true'] at hen
      have hp : m.pending = [] := coupling_empty_of_not_loading hc hen.2
      cases hfind : findAgent room with
      | none => simpa [stepEv, step, hen.2, hfind] using hd
      | some a => simp [stepEv, step, hen.2, hfind, hp, PendingDir, hen.1]
  | clickStop =>
      simp only [enabled, Bool.and_eq_true, Bool.not_eq_true'] at hen
      have hp : m.pending = [] := coupling_empty_of_not_loading hc hen.2
      cases hfind : findAgent room with
      | none => simpa [stepEv, step, hen.2, hfind] using hd
      | some a => simp [stepEv, step, hen.2, hfind, hp, PendingDir, hen.1]
  | rpcDone ok =>
      cases hp : m.pending with
      | nil => simpa [stepEv, step, hp] using hd
      | cons k rest =>
          have hr : rest = [] := by
            have hlen := hc.1
            rw [hp] at hlen
            simp only [List.length_cons] at hlen
            exact List.eq_nil_of_length_eq_zero (by omega)
          cases k <;> cases ok <;> simp [stepEv, step, hp, hr, PendingDir]
  | selectLang l => simp [isCallEv] at hcall
  | roomDisconnected => simp [isCallEv] at hcall

theorem callReachable_inv {m : Machine} (h : CallReachable m) :
    CouplingInv m ∧ PendingDir m := by
  induction h with
  | init => exact ⟨by simp [CouplingInv, initMachine], by simp [PendingDir, initMachine]⟩
  | step room ev hr hcall hen ih =>
      exact ⟨coupling_step room _ ev ih.1, pendingDir_step room _ ev ih.1 ih.2 hcall hen⟩

theorem score_step (room : Room) (m : Machine) (ev : Ev)
    (h : m.ctl.score = ⟨0, 0⟩) : (stepEv room m ev).ctl.score = ⟨0, 0⟩ := by
  cases ev with
  | clickStart =>
      cases hb : m.ctl.isLoading with
      | true => simpa [stepEv, step, hb] using h
      | false =>
          cases hfind : findAgent room with
          | none => simpa [stepEv, step, hb, hfind] using h
          | some a => simpa [stepEv, step, hb, hfind] using h
  | clickStop =>
      cases hb : m.ctl.isLoading with
      | true => simpa [stepEv, step, hb] using h
      | false =>
          cases hfind : findAgent room with
          | none => simpa [stepEv, step, hb, hfind] using h
          | some a => simpa [stepEv, step, hb, hfind] using h
  | rpcDone ok =>
      cases hp : m.pending with
      | nil => simpa [stepEv, step, hp] using h
      | cons k rest => cases k <;> cases ok <;> simp [stepEv, step, hp] <;> exact h
  | selectLang l => simpa [stepEv, step] using h
  | roomDisconnected => simp [stepEv, step]

theorem reachable_score {m : Machine} (h : Reachable m) : m.ctl.score = ⟨0, 0⟩ := by
  induction h with
  | init => simp [initMachine]
  | step room ev hr hen ih => exact score_step room _ ev ih

/-! ## Invariant lemmas for the session view -/

theorem effectCleanup_timers {s : SessionState} (h : SInv s) :
    (effectCleanup s).timers = [] := by
  cases hh : s.heldId with
  | none =>
      cases ht : s.timers with
      | nil => simp [effectCleanup, hh, ht]
      | cons t ts =>
          have := h.2 t (by rw [ht]; exact List.mem_cons_self t ts)
          rw [hh] at this
          cases this
  | some i =>
      simp only [effectCleanup, hh]
      rw [List.filter_eq_nil_iff]
      intro t htmem
      have := h.2 t htmem
      rw [hh] at this
      have hti : t.1 = i := by
        injection this with h1
        exact h1.symm
      simp [hti]

theorem sinv_effectRun {s : SessionState} (h : SInv s) : SInv (effectRun s) := by
  have hc := effectCleanup_timers h
  unfold effectRun
  split
  · refine ⟨by simp [hc], ?_⟩
    intro t ht
    simp only [hc, List.nil_append, List.mem_singleton] at ht
    simp [ht]
  · simp [SInv, hc]

theorem sinv_fireTimeout {s : SessionState} (h : SInv s) : SInv (fireTimeout s) := by
  unfold fireTimeout
  split
  · split
    · exact ⟨le_trans (List.length_filter_le _ _) h.1,
        fun t ht => h.2 t (List.mem_filter.mp ht).1⟩
    · exact ⟨le_trans (List.length_filter_le _ _) h.1,
        fun t ht => h.2 t (List.mem_filter.mp ht).1⟩
  · exact h

theorem sinv_step (s : SessionState) (ev : SEv) (h : SInv s) : SInv (sstep s ev) := by
  cases ev with
  | startSession => exact sinv_effectRun ⟨h.1, h.2⟩
  | endSession => exact sinv_effectRun ⟨h.1, h.2⟩
  | agentChange a => exact sinv_effectRun ⟨h.1, h.2⟩
  | timerFire => exact sinv_fireTimeout h
  | elapse dt => exact ⟨h.1, h.2⟩

theorem sreachable_sinv {s : SessionState} (h : SReachable s) : SInv s := by
  induction h with
  | init a => simp [SInv, initSession]
  | step ev hr hen ih => exact sinv_step _ ev ih

/-! ## Claim theorems -/

/-- Claim C1: while a start or stop call is in flight (the busy flag is
set), issuing either startGame or stopGame returns at once, dispatches no
remote call and leaves the machine state unchanged; and in every reachable
state at most one start or stop RPC is outstanding. -/
theorem start_stop_busy_guard :
    (∀ (room : Room) (m : Machine), m.ctl.isLoading = true →
        step room m Ev.clickStart = (m, [], none) ∧
        step room m Ev.clickStop = (m, [], none)) ∧
    (∀ m : Machine, Reachable m → m.pending.length ≤ 1) := by
  constructor
  · intro room m hl
    constructor <;> simp [step, hl]
  · intro m h
    exact (reachable_coupling h).1

/-- Witness for C1: the busy guard at a concrete in-flight machine and
the outstanding-call bound at the initial state. -/
theorem start_stop_busy_guard_witness :
    step room1 mBusy Ev.clickStart = (mBusy, [], none) ∧
    initMachine.pending.length ≤ 1 :=
  ⟨(start_stop_busy_guard.1 room1 mBusy rfl).1,
   start_stop_busy_guard.2 initMachine Reachable.init⟩

/-- Claim C2: when no remote participant is flagged as agent, startGame
and stopGame both fail with NoAgentPresent, dispatch no remote call and
leave the machine state unchanged. -/
theorem no_agent_rejects_both :
    ∀ (room : Room) (m : Machine),
      (∀ p ∈ room.remoteParticipants, p.isAgent = false) →
      m.ctl.isLoading = false →
      step room m Ev.clickStart = (m, [], some GameError.NoAgentPresent) ∧
      step room m Ev.clickStop = (m, [], some GameError.NoAgentPresent) := by
  intro room m hno hl
  have hfind : findAgent room = none := by
    unfold findAgent
    rw [List.find?_eq_none]
    intro p hp
    simp [hno p hp]
  constructor <;> simp [step, hl, hfind]

/-- Witness for C2 at a concrete agentless room. -/
theorem no_agent_rejects_both_witness :
    step roomNoAgent initMachine Ev.clickStart =
      (initMachine, [], some GameError.NoAgentPresent) ∧
    step roomNoAgent initMachine Ev.clickStop =
      (initMachine, [], some GameError.NoAgentPresent) :=
  no_agent_rejects_both roomNoAgent initMachine (by decide) rfl

/-- Claim C6: selecting any enumerated language and then starting the
game dispatches a start_game RPC to the agent whose payload equals the
selected value exactly. -/
theorem language_roundtrip_payload :
    ∀ (x : String) (room : Room) (m : Machine) (a : Participant),
      (LANGUAGES.map LanguageOption.value).contains x = true →
      m.ctl.isLoading = false → m.ctl.gameStarted = false →
      findAgent room = some a →
      (step room (stepEv room m (Ev.selectLang x)) Ev.clickStart).2.1 =
        [RpcCall.mk a.identity "start_game" x] := by
  intro x room m a hx hl hg hfind
  simp [step, stepEv, hl, hfind]

/-- Witness for C6: French selected at the initial state. -/
theorem language_roundtrip_payload_witness :
    (step room1 (stepEv room1 initMachine (Ev.selectLang "French")) Ev.clickStart).2.1 =
      [RpcCall.mk "agent-1" "start_game" "French"] :=
  language_roundtrip_payload "French" room1 initMachine
    { identity := "agent-1", isAgent := true } (by decide) rfl rfl rfl

/-- Claim C7: when the start_game or stop_game remote call fails, the
failure is absorbed at the call site as RpcFailure, the busy flag is
cleared, and the machine state equals its pre-call value exactly. -/
theorem rpc_failure_atomicity :
    ∀ (room : Room) (m : Machine) (a : Participant) (ev : Ev),
      (ev = Ev.clickStart ∨ ev = Ev.clickStop) →
      m.ctl.isLoading = false → m.pending = [] →
      findAgent room = some a →
      stepEv room (stepEv room m ev) (Ev.rpcDone false) = m ∧
      (step room (stepEv room m ev) (Ev.rpcDone false)).2.2 = some GameError.RpcFailure := by
  intro room m a ev hev hl hp hfind
  obtain ⟨⟨il, gs, lang, sc⟩, pend⟩ := m
  simp only at hl hp
  subst hl
  subst hp
  rcases hev with hev | hev <;> subst hev <;> simp [stepEv, step, hfind]

/-- Witness for C7: a failed start from the initial state. -/
theorem rpc_failure_atomicity_witness :
    stepEv room1 (stepEv room1 initMachine Ev.clickStart) (Ev.rpcDone false) = initMachine ∧
    (step room1 (stepEv room1 initMachine Ev.clickStart) (Ev.rpcDone false)).2.2 =
      some GameError.RpcFailure :=
  rpc_failure_atomicity room1 initMachine { identity := "agent-1", isAgent := true }
    Ev.clickStart (Or.inl rfl) rfl rfl rfl

/-- Claim C8: in every reachable machine state, score.correct is at most
score.total. -/
theorem score_correct_le_total :
    ∀ m : Machine, Reachable m → m.ctl.score.correct ≤ m.ctl.score.total := by
  intro m h
  rw [reachable_score h]

/-- Witness for C8 at the initial state. -/
theorem score_correct_le_total_witness :
    initMachine.ctl.score.correct ≤ initMachine.ctl.score.total :=
  score_correct_le_total initMachine Reachable.init

/-- Claim C9: a successful stopGame clears only the active flag: the
score and the selected language keep their pre-call values, and the
dispatched RPC is stop_game with empty payload. -/
theorem stop_frame_condition :
    ∀ (room : Room) (m : Machine) (a : Participant),
      m.ctl.gameStarted = true → m.ctl.isLoading = false → m.pending = [] →
      findAgent room = some a →
      stepEv room (stepEv room m Ev.clickStop) (Ev.rpcDone true) =
        { ctl := { m.ctl with gameStarted := false }, pending := [] } ∧
      (step room m Ev.clickStop).2.1 = [RpcCall.mk a.identity "stop_game" ""] := by
  intro room m a hg hl hp hfind
  obtain ⟨⟨il, gs, lang, sc⟩, pend⟩ := m
  simp only at hg hl hp
  subst hg
  subst hl
  subst hp
  simp [stepEv, step, hfind]

/-- Witness for C9 at a machine with an active game, language French and
score two out of three. -/
theorem stop_frame_condition_witness :
    stepEv room1 (stepEv room1 mActive Ev.clickStop) (Ev.rpcDone true) =
      { ctl := { mActive.ctl with gameStarted := false }, pending := [] } ∧
    (step room1 mActive Ev.clickStop).2.1 = [RpcCall.mk "agent-1" "stop_game" ""] :=
  stop_frame_condition room1 mActive { identity := "agent-1", isAgent := true }
    rfl rfl rfl rfl

/-- Claim C10: before any language selection the selected language is
Portuguese, and a startGame issued from the initial state dispatches a
start_game RPC whose payload is exactly Portuguese. -/
theorem default_language_start_payload :
    ∀ (room : Room) (a : Participant), findAgent room = some a →
      initMachine.ctl.selectedLanguage = "Portuguese" ∧
      (step room initMachine Ev.clickStart).2.1 =
        [RpcCall.mk a.identity "start_game" "Portuguese"] := by
  intro room a hfind
  exact ⟨rfl, by simp [step, initMachine, hfind]⟩

/-- Witness for C10 at a concrete room with an agent. -/
theorem default_language_start_payload_witness :
    initMachine.ctl.selectedLanguage = "Portuguese" ∧
    (step room1 initMachine Ev.clickStart).2.1 =
      [RpcCall.mk "agent-1" "start_game" "Portuguese"] :=
  default_language_start_payload room1 { identity := "agent-1", isAgent := true } rfl

/-- Claim C3: along every sequence of start and stop calls the active
flag alternates strictly: it rises exactly at a successful start
completion, falls exactly at a successful stop completion, and the score
is written to zero exactly when the flag rises and at no other step. -/
theorem active_alternation_and_score_reset :
    ∀ (room : Room) (m : Machine) (ev : Ev),
      CallReachable m → isCallEv ev = true → enabled m ev = true →
      (((stepEv room m ev).ctl.gameStarted = true ∧ m.ctl.gameStarted = false) ↔
        (ev = Ev.rpcDone true ∧ m.pending = [PendingKind.starting])) ∧
      (((stepEv room m ev).ctl.gameStarted = false ∧ m.ctl.gameStarted = true) ↔
        (ev = Ev.rpcDone true ∧ m.pending = [PendingKind.stopping])) ∧
      ((stepEv room m ev).ctl.score =
        if ev = Ev.rpcDone true ∧ m.pending = [PendingKind.starting] then ⟨0, 0⟩
        else m.ctl.score) := by
  intro room m ev hreach hcall hen
  obtain ⟨hcpl, hdir⟩ := callReachable_inv hreach
  cases ev with
  | clickStart =>
      simp only [enabled, Bool.and_eq_true, Bool.not_eq_true'] at hen
      have hp : m.pending = [] := coupling_empty_of_not_loading hcpl hen.2
      cases hfind : findAgent room with
      | none => simp [stepEv, step, hen.1, hen.2, hfind]
      | some a => simp [stepEv, step, hen.1, hen.2, hfind]
  | clickStop =>
      simp only [enabled, Bool.and_eq_true, Bool.not_eq_true'] at hen
      have hp : m.pending = [] := coupling_empty_of_not_loading hcpl hen.2
      cases hfind : findAgent room with
      | none => simp [stepEv, step, hen.1, hen.2, hfind]
      | some a => simp [stepEv, step, hen.1, hen.2, hfind]
  | rpcDone ok =>
      cases hp : m.pending with
      | nil => simp [enabled, hp] at hen
      | cons k rest =>
          have hr0 : rest = [] := by
            have hlen := hcpl.1
            rw [hp] at hlen
            simp only [List.length_cons] at hlen
            exact List.eq_nil_of_length_eq_zero (by omega)
          subst hr0
          cases k with
          | starting =>
              have hgs : m.ctl.gameStarted = false := hdir.1 hp
              cases ok <;> simp [stepEv, step, hp, hgs]
          | stopping =>
              have hgs : m.ctl.gameStarted = true := hdir.2 hp
              cases ok <;> simp [stepEv, step, hp, hgs]
  | selectLang l => simp [isCallEv] at hcall
  | roomDisconnected => simp [isCallEv] at hcall

/-- Witness for C3: the first start click from the initial state neither
raises nor lowers the active flag and keeps the score. -/
theorem active_alternation_and_score_reset_witness :
    (((stepEv room1 initMachine Ev.clickStart).ctl.gameStarted = true ∧
        initMachine.ctl.gameStarted = false) ↔
      (Ev.clickStart = Ev.rpcDone true ∧ initMachine.pending = [PendingKind.starting])) ∧
    (((stepEv room1 initMachine Ev.clickStart).ctl.gameStarted = false ∧
        initMachine.ctl.gameStarted = true) ↔
      (Ev.clickStart = Ev.rpcDone true ∧ initMachine.pending = [PendingKind.stopping])) ∧
    ((stepEv room1 initMachine Ev.clickStart).ctl.score =
      if Ev.clickStart = Ev.rpcDone true ∧ initMachine.pending = [PendingKind.starting]
      then ⟨0, 0⟩ else initMachine.ctl.score) :=
  active_alternation_and_score_reset room1 initMachine Ev.clickStart
    CallReachable.init rfl (by decide)

/-- Claim C4: when the liveness timeout fires while the agent state is
still connecting, room.disconnect is invoked and the alert says the agent
did not join the room; when it fires while the agent is available, neither
the disconnect flag nor the alert changes. -/
theorem agent_timeout_disconnect :
    (∀ s : SessionState, s.agentState = AgentState.connecting →
        sEnabled s SEv.timerFire = true →
        (sstep s SEv.timerFire).disconnectCalled = true ∧
        (sstep s SEv.timerFire).toast = some "Agent did not join the room. ") ∧
    (∀ s : SessionState, isAgentAvailable s.agentState = true →
        (sstep s SEv.timerFire).disconnectCalled = s.disconnectCalled ∧
        (sstep s SEv.timerFire).toast = s.toast) := by
  constructor
  · intro s hc hen
    simp only [sEnabled] at hen
    have hav : isAgentAvailable AgentState.connecting = false := rfl
    simp [sstep, fireTimeout, hen, hav, timeoutReason, hc]
  · intro s hav
    by_cases hen : s.timers.any (fun t => t.2 == s.now) = true
    · simp [sstep, fireTimeout, hen, hav]
    · simp only [Bool.not_eq_true] at hen
      simp [sstep, fireTimeout, hen]

/-- Witness for C4: the scenario traces of the specification.  A session
starts at time zero with the agent still connecting; after the full 20
unit window the due fire disconnects with the agent-did-not-join reason.
A due fire while the agent is listening changes nothing. -/
theorem agent_timeout_disconnect_witness :
    ((sstep (sstep (sstep (initSession AgentState.connecting) SEv.startSession)
        (SEv.elapse 20)) SEv.timerFire).disconnectCalled = true ∧
      (sstep (sstep (sstep (initSession AgentState.connecting) SEv.startSession)
        (SEv.elapse 20)) SEv.timerFire).toast = some "Agent did not join the room. ") ∧
    ((sstep sessionListening SEv.timerFire).disconnectCalled =
        sessionListening.disconnectCalled ∧
      (sstep sessionListening SEv.timerFire).toast = sessionListening.toast) :=
  ⟨agent_timeout_disconnect.1
      (sstep (sstep (initSession AgentState.connecting) SEv.startSession) (SEv.elapse 20))
      (by decide) (by decide),
   agent_timeout_disconnect.2 sessionListening rfl⟩

/-- Claim C5 counterexample: after a session starts, a change of the
agent state reruns the timeout effect, which cancels the pending timeout
and arms a second full 20 unit one; on this trace two timeouts are armed
with the session still active and the deadline is restarted, refuting the
claim that the window is armed only once per session lifetime. -/
theorem timeout_single_arming_cex :
    sEnabled (initSession AgentState.connecting) SEv.startSession = true ∧
    sEnabled (sstep (initSession AgentState.connecting) SEv.startSession)
      (SEv.elapse 5) = true ∧
    sEnabled (sstep (sstep (initSession AgentState.connecting) SEv.startSession)
      (SEv.elapse 5)) (SEv.agentChange AgentState.listening) = true ∧
    (sstep (sstep (sstep (initSession AgentState.connecting) SEv.startSession)
      (SEv.elapse 5)) (SEv.agentChange AgentState.listening)).sessionStarted = true ∧
    (sstep (sstep (sstep (initSession AgentState.connecting) SEv.startSession)
      (SEv.elapse 5)) (SEv.agentChange AgentState.listening)).armCount = 2 ∧
    (sstep (sstep (sstep (initSession AgentState.connecting) SEv.startSession)
      (SEv.elapse 5)) (SEv.agentChange AgentState.listening)).timers = [(1, 25)] := by
  decide

/-- Claim C5 amended: at most one liveness timeout is pending at any
reachable session-view state; while the session is active every
agent-state change cancels the pending timeout and arms a fresh full 20
unit one; switching the session off leaves no timeout pending. -/
theorem timeout_rearm_on_agent_change :
    (∀ s : SessionState, SReachable s → s.timers.length ≤ 1) ∧
    (∀ (s : SessionState) (a : AgentState), SReachable s → s.sessionStarted = true →
        (sstep s (SEv.agentChange a)).timers = [(s.nextId, s.now + 20)] ∧
        (sstep s (SEv.agentChange a)).armCount = s.armCount + 1) ∧
    (∀ s : SessionState, SReachable s → (sstep s SEv.endSession).timers = []) := by
  refine ⟨fun s h => (sreachable_sinv h).1, ?_, ?_⟩
  · intro s a h hs
    have hinv : SInv { s with agentState := a } := by
      obtain ⟨h1, h2⟩ := sreachable_sinv h
      exact ⟨h1, h2⟩
    have hc := effectCleanup_timers hinv
    simp only [hs] at hc
    constructor
    · simp [sstep, effectRun, hs, hc]
    · simp [sstep, effectRun, hs]
  · intro s h
    have hinv : SInv { s with sessionStarted := false } := by
      obtain ⟨h1, h2⟩ := sreachable_sinv h
      exact ⟨h1, h2⟩
    have hc := effectCleanup_timers hinv
    simp [sstep, effectRun, hc]

/-- Witness for the amended C5 on the concrete reachable state right
after a session start. -/
theorem timeout_rearm_on_agent_change_witness :
    (sstep (initSession AgentState.connecting) SEv.startSession).timers.length ≤ 1 ∧
    (sstep (sstep (initSession AgentState.connecting) SEv.startSession)
        (SEv.agentChange AgentState.listening)).timers =
      [((sstep (initSession AgentState.connecting) SEv.startSession).nextId,
        (sstep (initSession AgentState.connecting) SEv.startSession).now + 20)] ∧
    (sstep (sstep (initSession AgentState.connecting) SEv.startSession)
        SEv.endSession).timers = [] := by
  have hr : SReachable (sstep (initSession AgentState.connecting) SEv.startSession) :=
    SReachable.step SEv.startSession (SReachable.init AgentState.connecting) (by decide)
  exact ⟨timeout_rearm_on_agent_change.1 _ hr,
    (timeout_rearm_on_agent_change.2.1 _ AgentState.listening hr (by decide)).1,
    timeout_rearm_on_agent_change.2.2 _ hr⟩

end WordGame
